import Mathlib

/-!
Shallow embedding of the item-rotation allocator in `src/main.py`.

State held in Redis is modelled by `World`: the rotation pool (the Redis
list under key `items`), the usage ledger (the Redis hash under key
`item_usage`, modelled as a total function with the hash-absent default 0,
matching the `or 0` read in the code), and the on-disk usage snapshot file
(`item_usage.txt`), which may be absent, well-formed JSON, or malformed.
-/

namespace VpnCities

abbrev Item := String

/-- Configuration constant, line 8 of `src/main.py`. -/
def MAX_CLIENTS_PER_ITEM : Nat := 2

/-- The usage ledger: Redis hash `item_usage`, with absent fields read as 0. -/
abbrev Usage := Item → Nat

/-- Contents of the snapshot file `item_usage.txt`: either valid JSON mapping
items to counts, or unparseable text. -/
inductive Snapshot where
  | malformed
  | good (counts : Usage)

/-- The mutable state visible to the program: the Redis list `items`, the
Redis hash `item_usage`, and the snapshot file (absent when `none`). -/
structure World where
  items : List Item
  usage : Usage
  usageFile : Option Snapshot

/-- Python `str.strip()`: drop whitespace from both ends, written by
structural recursion over the character list so it computes. -/
def strip (s : String) : String :=
  ⟨((s.data.dropWhile Char.isWhitespace).reverse.dropWhile Char.isWhitespace).reverse⟩

/-- Parsing of `links.txt` lines: `[line.strip() for line in file if line.strip()]`
(lines 54 and 81 of `src/main.py`). -/
def parseLinks (lines : List String) : List Item :=
  (lines.map strip).filter (fun l => l != "")

/-- `load_usage_data` (lines 24-31): returns the parsed snapshot, or the empty
mapping when the file is absent or unparseable (JSONDecodeError is caught). -/
def load_usage_data (file : Option Snapshot) : Usage :=
  match file with
  | some (.good counts) => counts
  | some .malformed => fun _ => 0
  | none => fun _ => 0

/-- Redis `hset`: point update of the ledger. -/
def hset (u : Usage) (k : Item) (v : Nat) : Usage :=
  fun q => if q = k then v else u q

/-- The seeding loop `for item in items: hset("item_usage", item, f item)`
(lines 62-64 and 84-85), folded left over the item list. -/
def seedUsage (saved : Usage) (its : List Item) (u : Usage) : Usage :=
  its.foldl (fun acc it => hset acc it (saved it)) u

/-- Outcome of `initialize_items`: the function catches `FileNotFoundError`
and `ValueError` and only prints, so the distinction is log-only. -/
inductive InitOutcome where
  | ok
  | fileNotFound
  | noItems
deriving DecidableEq

/-- `initialize_items` (lines 41-70). `force_reset` deletes both Redis keys;
the Redis `exists("items")` check is list-nonemptiness (an empty Redis list
key does not exist). File and parse errors are caught and reported in the
outcome; no exception escapes. `links` is `none` when `links.txt` is missing,
otherwise the list of its lines. -/
def initialize_items (force_reset : Bool) (links : Option (List String)) (w0 : World) :
    World × InitOutcome :=
  let w := if force_reset then { w0 with items := [], usage := fun _ => 0 } else w0
  if w.items = [] then
    match links with
    | none => (w, .fileNotFound)
    | some lines =>
      let its := parseLinks lines
      if its = [] then (w, .noItems)
      else
        ({ w with items := its,
                  usage := seedUsage (load_usage_data w.usageFile) its w.usage }, .ok)
  else (w, .ok)

/-- Result of `reset_item_usage`: `err` is an uncaught Redis error (carrying
the state already mutated before the raise). -/
inductive ResetResult where
  | ok (w : World)
  | err (w : World)

/-- `reset_item_usage` (lines 72-88): delete the `items` list, re-read
`links.txt`, rpush the parsed items and zero their ledger fields. A missing
file is caught (`FileNotFoundError`) leaving the pool empty; an empty parsed
list makes `rpush("items")` raise a Redis arity error, which is not caught.
Ledger fields for items outside the parsed list are left untouched. -/
def reset_item_usage (links : Option (List String)) (w : World) : ResetResult :=
  let w1 : World := { w with items := [] }
  match links with
  | none => .ok w1
  | some lines =>
    let its := parseLinks lines
    if its = [] then .err w1
    else .ok { w1 with items := its, usage := seedUsage (fun _ => 0) its w1.usage }

/-- Errors that can escape a `get_item` request (HTTP 500 at the transport). -/
inductive Err where
  | snapshotWrite
  | redis
deriving DecidableEq

/-- Result of one `get_item` request: a successful JSON response, an escaped
exception (with the Redis state at that point), or fuel exhaustion standing
for a loop that has not produced anything yet. -/
inductive GResult where
  | ok (item : Item) (currentUsage : Nat) (w : World)
  | error (e : Err) (w : World)
  | outOfFuel

/-- The `while True` loop of `get_item` (lines 98-110), fuel-indexed.
`lindex("items", 0)` is `head?`; on a hit below the limit the ledger field is
incremented (`hincrby`) and `save_usage_data` writes the whole post-increment
hash to the snapshot file; `saveFails` models an I/O exception inside
`save_usage_data`, which no handler catches, so it escapes after the
increment. At the limit the head is popped and the loop continues; on an
empty pool `reset_item_usage` runs and the loop continues. -/
def get_item_loop (saveFails : Bool) (links : Option (List String)) :
    Nat → World → GResult
  | 0, _ => .outOfFuel
  | fuel + 1, w =>
    match w.items.head? with
    | some item =>
      if w.usage item < MAX_CLIENTS_PER_ITEM then
        if saveFails then
          .error .snapshotWrite { w with usage := hset w.usage item (w.usage item + 1) }
        else
          .ok item (w.usage item + 1)
            { w with usage := hset w.usage item (w.usage item + 1),
                     usageFile := some (.good (hset w.usage item (w.usage item + 1))) }
      else
        get_item_loop saveFails links fuel { w with items := w.items.tail }
    | none =>
      match reset_item_usage links w with
      | .ok w' => get_item_loop saveFails links fuel w'
      | .err w' => .error .redis w'

/-- A sequence of n sequential `get_item` requests, each run with the given
fuel; stops with `none` as soon as a request does not return a response. -/
def runAllocs (links : Option (List String)) (fuel : Nat) :
    Nat → World → Option (List (Item × Nat) × World)
  | 0, w => some ([], w)
  | n + 1, w =>
    match get_item_loop false links fuel w with
    | .ok it u w' => (runAllocs links fuel n w').map (fun p => ((it, u) :: p.1, p.2))
    | _ => none

/-- Module-level startup (lines 112-118): `initialize_items(force_reset=True)`
followed unconditionally by `uvicorn.run`; no code path aborts the process,
so the final `true` records that serving always begins. -/
def startup (links : Option (List String)) (w : World) : World × InitOutcome × Bool :=
  let r := initialize_items true links w
  (r.1, r.2, true)

/-- Result-state projection. -/
def resultWorld : GResult → Option World
  | .ok _ _ w => some w
  | .error _ w => some w
  | .outOfFuel => none

/-- Ledger field of the result state. -/
def resultUsageAt (r : GResult) (k : Item) : Option Nat :=
  (resultWorld r).map (fun w => w.usage k)

/-- Exception kind of the result, if any. -/
def errKind : GResult → Option Err
  | .error e _ => some e
  | _ => none

/-- Whether the request produced a response. -/
def isOk : GResult → Bool
  | .ok _ _ _ => true
  | _ => false

/-- Whether the fuel ran out with no response and no exception. -/
def isOutOfFuel : GResult → Bool
  | .outOfFuel => true
  | _ => false

/-- Pool projection of a reset result. -/
def resetItems : ResetResult → Option (List Item)
  | .ok w => some w.items
  | .err _ => none

/-- Ledger projection of a reset result. -/
def resetUsageAt (r : ResetResult) (k : Item) : Option Nat :=
  match r with
  | .ok w => some (w.usage k)
  | .err _ => none

/-- On success the allocated item is still at the pool head of the result
state (the success branch never pops). -/
def headStable : GResult → Prop
  | .ok it _ w => w.items.head? = some it
  | _ => True

/-- Every ledger field is at most the usage limit. -/
def UsageBounded (w : World) : Prop :=
  ∀ k, w.usage k ≤ MAX_CLIENTS_PER_ITEM

/-- On success: the result ledger is bounded, the returned count is the
post-increment ledger field of the allocated item, and it lies in
[1, MAX_CLIENTS_PER_ITEM]. -/
def OkBounded : GResult → Prop
  | .ok it u w => UsageBounded w ∧ u = w.usage it ∧ 1 ≤ u ∧ u ≤ MAX_CLIENTS_PER_ITEM
  | _ => True

/-- Bound on a whole serialized run: the final ledger respects the usage
limit, and so does every count returned to a caller along the way. -/
def RunBounded : Option (List (Item × Nat) × World) → Prop
  | some (rs, w') => UsageBounded w' ∧ ∀ p ∈ rs, p.2 ≤ MAX_CLIENTS_PER_ITEM
  | none => True

/-- Fresh process start: no snapshot file on disk, then the module-level
forced initialization. -/
def startWorld (lines : List String) (w : World) : World :=
  (initialize_items true (some lines) { w with usageFile := none }).1

/-- Checks that reseeding a restarted process from the snapshot file of the
final state reproduces, for every canonical item, the final ledger value. -/
def sameOnLinks (lines : List String) (wR : World)
    (r : Option (List (Item × Nat) × World)) : Bool :=
  match r with
  | none => true
  | some (_, w') =>
    (parseLinks lines).all fun k =>
      (initialize_items true (some lines) { wR with usageFile := w'.usageFile }).1.usage k
        == w'.usage k

/-- Local state of one in-flight `get_item` request in the interleaved model:
the program counter between the individual Redis commands of the loop body.
`done` carries the response value, computed from the stale `usage` read. -/
inductive CState where
  | start
  | gotItem (it : Item)
  | gotUsage (it : Item) (u : Nat)
  | done (it : Item) (u : Nat)
  | failed
deriving DecidableEq

/-- One atomic Redis command of the `get_item` loop body, as seen by one
request. The code guards the body with `async with asyncio.Lock()`, but that
lock object is constructed afresh inside every request, so it excludes
nothing: between any two Redis commands of one request, another request may
run. `hincrby` adds 1 to the current ledger field, while the response value
`u + 1` is computed from the earlier `hget` read. The reset branch is,
conservatively, one step; no theorem below interleaves a reset. -/
def cstep (links : Option (List String)) (w : World) : CState → World × CState
  | .start =>
    match w.items.head? with
    | some it => (w, .gotItem it)
    | none =>
      match reset_item_usage links w with
      | .ok w' => (w', .start)
      | .err w' => (w', .failed)
  | .gotItem it => (w, .gotUsage it (w.usage it))
  | .gotUsage it u =>
    if u < MAX_CLIENTS_PER_ITEM then
      ({ w with usage := hset w.usage it (w.usage it + 1),
                usageFile := some (.good (hset w.usage it (w.usage it + 1))) },
        .done it (u + 1))
    else
      ({ w with items := w.items.tail }, .start)
  | .done it u => (w, .done it u)
  | .failed => (w, .failed)

/-- Runs two concurrent requests under an explicit schedule: `true` steps the
first request, `false` the second. -/
def runSched (links : Option (List String)) :
    List Bool → World × CState × CState → World × CState × CState
  | [], s => s
  | b :: bs, (w, c1, c2) =>
    if b then
      let r := cstep links w c1
      runSched links bs (r.1, r.2, c2)
    else
      let r := cstep links w c2
      runSched links bs (r.1, c1, r.2)

def w0 : World := ⟨["A", "B"], fun _ => 0, none⟩

def wInit : World := ⟨[], fun _ => 0, none⟩

def wStale : World := ⟨[], fun k => if k = "C" then 5 else 0, none⟩

def linksAB : Option (List String) := some ["A", "B"]

def raceWorld : World := ⟨["A"], fun k => if k = "A" then 1 else 0, none⟩

def raceRun : World × CState × CState :=
  runSched (some ["A"]) [true, true, false, false, true, false] (raceWorld, .start, .start)

def serialWorld : World := ⟨["A", "B"], fun k => if k = "A" then 1 else 0, none⟩

def serialRun : World × CState × CState :=
  runSched linksAB [true, true, true, false, false, false, false, false, false]
    (serialWorld, .start, .start)

lemma seedUsage_apply (saved : Usage) (its : List Item) (u : Usage) (k : Item) :
    seedUsage saved its u k = if k ∈ its then saved k else u k := by
  induction its generalizing u with
  | nil => simp [seedUsage]
  | cons a its ih =>
    simp only [seedUsage, List.foldl_cons] at ih ⊢
    rw [ih]
    by_cases hk : k ∈ its
    · simp [hk]
    · by_cases ha : k = a
      · subst ha
        simp [hk, hset]
      · simp [hk, ha, hset]

lemma reset_none_eq (w : World) :
    reset_item_usage none w = .ok { w with items := [] } := rfl

lemma reset_some_char (lines : List String) (w : World) (hne : parseLinks lines ≠ []) :
    reset_item_usage (some lines) w =
      .ok { items := parseLinks lines,
            usage := seedUsage (fun _ => 0) (parseLinks lines) w.usage,
            usageFile := w.usageFile } := by
  simp [reset_item_usage, hne]

lemma reset_some_empty (lines : List String) (w : World) (he : parseLinks lines = []) :
    reset_item_usage (some lines) w = .err { w with items := [] } := by
  simp [reset_item_usage, he]

lemma initialize_force_char (lines : List String) (w : World) (hne : parseLinks lines ≠ []) :
    (initialize_items true (some lines) w).2 = .ok
    ∧ (initialize_items true (some lines) w).1.items = parseLinks lines
    ∧ (initialize_items true (some lines) w).1.usageFile = w.usageFile
    ∧ ∀ k, (initialize_items true (some lines) w).1.usage k =
        if k ∈ parseLinks lines then load_usage_data w.usageFile k else 0 := by
  simp only [initialize_items, if_true]
  rw [if_neg hne]
  refine ⟨rfl, rfl, rfl, fun k => ?_⟩
  simp [seedUsage_apply]

lemma headStable_getLoop (sf : Bool) (links : Option (List String)) :
    ∀ fuel w, headStable (get_item_loop sf links fuel w) := by
  intro fuel
  induction fuel with
  | zero => intro w; simp [get_item_loop, headStable]
  | succ n ih =>
    intro w
    simp only [get_item_loop]
    split
    · split
      · split
        · simp [headStable]
        · next heq _ _ =>
          simpa [headStable] using heq
      · exact ih _
    · split
      · exact ih _
      · simp [headStable]

lemma getLoop_ok_fileGood (sf : Bool) (links : Option (List String)) :
    ∀ fuel w it u w', get_item_loop sf links fuel w = .ok it u w' →
      w'.usageFile = some (.good w'.usage) := by
  intro fuel
  induction fuel with
  | zero => intro w it u w' h; exact GResult.noConfusion h
  | succ n ih =>
    intro w it u w' h
    simp only [get_item_loop] at h
    split at h
    · split at h
      · split at h
        · exact GResult.noConfusion h
        · cases h
          rfl
      · exact ih _ it u w' h
    · split at h
      · exact ih _ it u w' h
      · exact GResult.noConfusion h

lemma runAllocs_fileGood (links : Option (List String)) (fuel : Nat) :
    ∀ M w rs w', runAllocs links fuel M w = some (rs, w') →
      w' = w ∨ w'.usageFile = some (.good w'.usage) := by
  intro M
  induction M with
  | zero =>
    intro w rs w' h
    simp only [runAllocs] at h
    cases h
    exact Or.inl rfl
  | succ n ih =>
    intro w rs w' h
    simp only [runAllocs] at h
    split at h
    · next it u w1 heq =>
      rw [Option.map_eq_some'] at h
      obtain ⟨p, hp, hpe⟩ := h
      have hw' : p.2 = w' := congrArg Prod.snd hpe
      rcases ih w1 p.1 p.2 hp with h1 | h2
      · rw [← hw', h1]
        exact Or.inr (getLoop_ok_fileGood false links fuel w it u w1 heq)
      · rw [← hw']
        exact Or.inr h2
    · exact Option.noConfusion h

lemma reset_ok_bounded (links : Option (List String)) (w w' : World)
    (h : reset_item_usage links w = .ok w') (hb : UsageBounded w) : UsageBounded w' := by
  cases links with
  | none =>
    rw [reset_none_eq] at h
    cases h
    exact hb
  | some lines =>
    by_cases hne : parseLinks lines = []
    · rw [reset_some_empty _ _ hne] at h
      exact ResetResult.noConfusion h
    · rw [reset_some_char _ _ hne] at h
      cases h
      intro k
      simp only [seedUsage_apply]
      split
      · exact Nat.zero_le _
      · exact hb k

lemma getLoop_okBounded (sf : Bool) (links : Option (List String)) :
    ∀ fuel w, UsageBounded w → OkBounded (get_item_loop sf links fuel w) := by
  intro fuel
  induction fuel with
  | zero => intro w hb; simp [get_item_loop, OkBounded]
  | succ n ih =>
    intro w hb
    simp only [get_item_loop]
    split
    · next item heq =>
      split
      · next hu =>
        split
        · simp [OkBounded]
        · refine ⟨?_, ?_, ?_, ?_⟩
          · intro k
            simp only [hset]
            split
            · exact hu
            · exact hb k
          · simp [hset]
          · exact Nat.succ_le_succ (Nat.zero_le _)
          · exact hu
      · exact ih _ hb
    · split
      · next w' hr => exact ih w' (reset_ok_bounded links w w' hr hb)
      · simp [OkBounded]

lemma runAllocs_bounded (links : Option (List String)) (fuel : Nat) :
    ∀ N w, UsageBounded w → RunBounded (runAllocs links fuel N w) := by
  intro N
  induction N with
  | zero =>
    intro w hb
    exact ⟨hb, by simp⟩
  | succ n ih =>
    intro w hb
    simp only [runAllocs]
    split
    · next it u w1 heq =>
      have hob := getLoop_okBounded false links fuel w hb
      rw [heq] at hob
      obtain ⟨hb1, -, -, hu⟩ := hob
      cases hr : runAllocs links fuel n w1 with
      | none => exact trivial
      | some p =>
        have hR := ih w1 hb1
        rw [hr] at hR
        obtain ⟨rs1, w'⟩ := p
        refine ⟨hR.1, fun q hq => ?_⟩
        rcases List.mem_cons.mp hq with hq1 | hq2
        · rw [hq1]
          exact hu
        · exact hR.2 q hq2
    · exact trivial

lemma getLoop_missing_links (sf : Bool) :
    ∀ fuel w, w.items = [] → get_item_loop sf none fuel w = .outOfFuel := by
  intro fuel
  induction fuel with
  | zero => intro w h; rfl
  | succ n ih =>
    intro w h
    simp only [get_item_loop]
    rw [h]
    exact ih _ rfl

lemma getLoop_empty_links (sf : Bool) (lines : List String) :
    ∀ fuel w, w.items = [] → parseLinks lines = [] →
      get_item_loop sf (some lines) (fuel + 1) w = .error .redis { w with items := [] } := by
  intro fuel w h he
  simp only [get_item_loop]
  rw [h, reset_some_empty lines w he]
  exact rfl

lemma startWorld_char (lines : List String) (w : World) (hne : parseLinks lines ≠ []) :
    (startWorld lines w).usageFile = none ∧ ∀ k, (startWorld lines w).usage k = 0 := by
  obtain ⟨-, -, h3, h4⟩ := initialize_force_char lines { w with usageFile := none } hne
  refine ⟨h3.trans rfl, fun k => ?_⟩
  refine (h4 k).trans ?_
  simp [load_usage_data]

lemma startWorld_usage (lines : List String) (w : World) (k : Item) :
    (startWorld lines w).usage k = 0 := by
  by_cases hne : parseLinks lines = []
  · simp [startWorld, initialize_items, hne]
  · exact (startWorld_char lines w hne).2 k

/-- C1: Saturate-then-advance. From the freshly seeded pool [A, B] with all
usage counts zero and usage limit 2, four consecutive sequential requests
return (A,1), (A,2), (B,1), (B,2) in that order; and, in full generality, a
successful allocation leaves the allocated item at the head of the resulting
pool (the success branch never pops). -/
theorem saturate_then_advance :
    ((runAllocs linksAB 10 4 w0).map (fun p => p.1)
        = some [("A", 1), ("A", 2), ("B", 1), ("B", 2)])
    ∧ ∀ sf links fuel w, headStable (get_item_loop sf links fuel w) :=
  ⟨by decide, fun sf links fuel w => headStable_getLoop sf links fuel w⟩

/-- C2: Auto-reset. After the four requests that exhaust the pool [A, B] at
usage limit 2, a fifth sequential request performs a full reset and returns
(A,1); afterwards the ledger reads 1 for A and 0 for B, and the pool is the
reseeded canonical list [A, B]. -/
theorem auto_reset_fifth_call :
    (runAllocs linksAB 10 5 w0).map
        (fun p => (p.1, p.2.usage "A", p.2.usage "B", p.2.items))
      = some ([("A", 1), ("A", 2), ("B", 1), ("B", 2), ("A", 1)], 1, 0, ["A", "B"]) := by
  decide

/-- C3 counterexample: a request that finds the pool empty and performs a
full reset does NOT zero every ledger entry. Starting from an empty pool with
a stale ledger entry C at 5 while the canonical list is [A, B], the request
resets, succeeds with (A,1), and the ledger entry for C still reads 5, not 0:
`reset_item_usage` deletes the `items` list but never deletes the
`item_usage` hash, only overwriting the fields of current canonical items. -/
theorem reset_stale_entry_counterexample :
    resultUsageAt (get_item_loop false linksAB 2 wStale) "C" = some 5
    ∧ isOk (get_item_loop false linksAB 2 wStale) = true
    ∧ (5 : Nat) ≠ 0 := by decide

/-- C3 amended: a full reset reseeds the pool with the canonical item list in
order and zeroes the ledger entries of the canonical items; ledger entries
for items no longer present in the canonical list keep their previous
counts. -/
theorem reset_zeroes_canonical_entries (lines : List String) (w : World)
    (hne : parseLinks lines ≠ []) :
    resetItems (reset_item_usage (some lines) w) = some (parseLinks lines)
    ∧ ∀ k, resetUsageAt (reset_item_usage (some lines) w) k
        = some (if k ∈ parseLinks lines then 0 else w.usage k) := by
  rw [reset_some_char lines w hne]
  refine ⟨rfl, fun k => ?_⟩
  simp [resetUsageAt, seedUsage_apply]

/-- C3 witness: the amended theorem applied to the canonical list [A, B] and
the stale-ledger world. -/
theorem reset_zeroes_canonical_entries_witness :
    parseLinks ["A", "B"] ≠ []
    ∧ resetItems (reset_item_usage (some ["A", "B"]) wStale)
        = some (parseLinks ["A", "B"]) :=
  ⟨by decide, (reset_zeroes_canonical_entries ["A", "B"] wStale (by decide)).1⟩

/-- C4 counterexample: the four-step sequence is NOT a critical section. The
lock object is constructed afresh inside every request, so with two requests
racing on item A at usage 1 (remaining capacity K = 1, limit 2), the
interleaving that runs both `hget` reads before either `hincrby` lets both
requests allocate A: both respond (A,2) and the ledger for A ends at 3,
exceeding the usage limit. -/
theorem race_exceeds_limit_counterexample :
    raceRun.1.usage "A" = 3 ∧ ¬ (3 ≤ MAX_CLIENTS_PER_ITEM)
    ∧ raceRun.2.1 = CState.done "A" 2 ∧ raceRun.2.2 = CState.done "A" 2 := by decide

/-- C4 amended: the code provides no mutual exclusion (the asyncio lock is
per-request), so the no-over-allocation guarantee holds only for serialized
execution, where it holds universally: starting from any state whose ledger
respects the usage limit, any number of allocate() requests run to completion
one after another keep every ledger value at most the limit, and every count
returned to a caller is at most the limit. In particular, in the two-caller
step model with item A at usage 1 (remaining capacity K = 1, limit 2), the
serialized schedule lets exactly K = 1 of the 2 callers allocate A; the other
advances to B and the ledger never exceeds the limit. -/
theorem serialized_no_overallocation (links : Option (List String)) (fuel N : Nat)
    (w : World) :
    (UsageBounded w → RunBounded (runAllocs links fuel N w))
    ∧ (serialRun.1.usage "A" = 2 ∧ serialRun.1.usage "A" ≤ MAX_CLIENTS_PER_ITEM
      ∧ serialRun.1.usage "B" = 1
      ∧ serialRun.2.1 = CState.done "A" 2 ∧ serialRun.2.2 = CState.done "B" 1) :=
  ⟨fun hb => runAllocs_bounded links fuel N w hb, by decide⟩

/-- C4 witness: the amended theorem applied to two serialized requests on the
fresh all-zero [A, B] pool. -/
theorem serialized_no_overallocation_witness :
    UsageBounded w0 ∧ RunBounded (runAllocs linksAB 10 2 w0) := by
  have hb : UsageBounded w0 := fun _ => Nat.zero_le _
  exact ⟨hb, (serialized_no_overallocation linksAB 10 2 w0).1 hb⟩

/-- C5 counterexample: a failing snapshot write IS surfaced as a request
error. With the fresh [A, B] pool and a snapshot write that fails, the
request does not return the assigned item: the exception escapes
(`save_usage_data` has no handler), after the ledger increment for A was
already applied. -/
theorem snapshot_failure_surfaces_counterexample :
    errKind (get_item_loop true linksAB 5 w0) = some Err.snapshotWrite
    ∧ isOk (get_item_loop true linksAB 5 w0) = false
    ∧ resultUsageAt (get_item_loop true linksAB 5 w0) "A" = some 1 := by decide

/-- C5 amended: whenever the ledger increment succeeds but the snapshot write
fails, the request surfaces the snapshot failure as an error instead of
returning the assigned item, and the ledger increment is left applied. -/
theorem snapshot_failure_aborts_after_increment (links : Option (List String))
    (fuel : Nat) (w : World) (it : Item) (hh : w.items.head? = some it)
    (hu : w.usage it < MAX_CLIENTS_PER_ITEM) :
    errKind (get_item_loop true links (fuel + 1) w) = some Err.snapshotWrite
    ∧ resultUsageAt (get_item_loop true links (fuel + 1) w) it = some (w.usage it + 1)
    ∧ isOk (get_item_loop true links (fuel + 1) w) = false := by
  simp only [get_item_loop]
  rw [hh]
  simp only [if_pos hu, if_true]
  refine ⟨rfl, ?_, rfl⟩
  simp [resultUsageAt, resultWorld, hset]

/-- C5 witness: the amended theorem applied to the fresh [A, B] pool. -/
theorem snapshot_failure_aborts_after_increment_witness :
    w0.items.head? = some "A" ∧ w0.usage "A" < MAX_CLIENTS_PER_ITEM
    ∧ errKind (get_item_loop true linksAB 5 w0) = some Err.snapshotWrite :=
  ⟨by decide, by decide,
    (snapshot_failure_aborts_after_increment linksAB 4 w0 "A" (by decide) (by decide)).1⟩

/-- C6 counterexample: a missing canonical item list is NOT fatal at startup.
`initialize_items` catches the file error and only prints, the module then
starts the server unconditionally: the outcome is `fileNotFound`, serving
begins (the final `true`), and the pool is empty. -/
theorem startup_serves_after_config_error_counterexample :
    (startup none wInit).2.2 = true
    ∧ (startup none wInit).2.1 = InitOutcome.fileNotFound
    ∧ (startup none wInit).1.items = [] := by decide

/-- C6 amended: a missing or item-free canonical list at startup is caught
and logged; the process begins serving anyway, with an empty pool. -/
theorem startup_swallows_config_errors (w : World) (lines : List String)
    (he : parseLinks lines = []) :
    ((startup none w).2.2 = true ∧ (startup none w).2.1 = InitOutcome.fileNotFound
      ∧ (startup none w).1.items = [])
    ∧ ((startup (some lines) w).2.2 = true ∧ (startup (some lines) w).2.1 = InitOutcome.noItems
      ∧ (startup (some lines) w).1.items = []) := by
  constructor
  · exact ⟨rfl, rfl, rfl⟩
  · simp [startup, initialize_items, he]

/-- C6 witness: the amended theorem applied to a links file holding one blank
line, which parses to no items. -/
theorem startup_swallows_config_errors_witness :
    parseLinks [""] = [] ∧ (startup (some [""]) wInit).2.1 = InitOutcome.noItems :=
  ⟨by decide, (startup_swallows_config_errors wInit [""] (by decide)).2.2.1⟩

/-- C7 counterexample: with the canonical list file missing and the pool
empty, a request runs 50 loop iterations without returning an item and
without failing: every iteration re-runs the reset, which catches the file
error and leaves the pool empty. -/
theorem missing_links_no_result_counterexample :
    isOutOfFuel (get_item_loop false none 50 wInit) = true
    ∧ isOk (get_item_loop false none 50 wInit) = false
    ∧ errKind (get_item_loop false none 50 wInit) = none := by decide

/-- C7 amended: with the canonical list file missing and the pool empty, a
request loops forever — for every fuel bound it neither returns nor fails;
with the file present but parsing to no items, the request fails fast with a
Redis error (`rpush` called with no values). -/
theorem missing_links_diverges_empty_links_errors :
    (∀ sf fuel w, w.items = [] → get_item_loop sf none fuel w = .outOfFuel)
    ∧ (∀ sf lines fuel w, w.items = [] → parseLinks lines = [] →
        errKind (get_item_loop sf (some lines) (fuel + 1) w) = some Err.redis) := by
  constructor
  · exact fun sf fuel w h => getLoop_missing_links sf fuel w h
  · intro sf lines fuel w h he
    rw [getLoop_empty_links sf lines fuel w h he]
    rfl

/-- C7 witness: the amended theorem applied to the empty-pool world with the
links file missing. -/
theorem missing_links_diverges_empty_links_errors_witness :
    wInit.items = [] ∧ get_item_loop false none 7 wInit = .outOfFuel :=
  ⟨rfl, missing_links_diverges_empty_links_errors.1 false 7 wInit rfl⟩

/-- C8: Malformed snapshot recovery. When the snapshot file exists but is
unparseable, forced initialization succeeds (the JSON error is caught and the
snapshot discarded), the pool is seeded from the canonical list, and every
ledger entry starts at 0. -/
theorem malformed_snapshot_recovery (lines : List String) (w : World)
    (hne : parseLinks lines ≠ []) :
    (initialize_items true (some lines) { w with usageFile := some .malformed }).2
        = InitOutcome.ok
    ∧ (initialize_items true (some lines) { w with usageFile := some .malformed }).1.items
        = parseLinks lines
    ∧ ∀ k, (initialize_items true (some lines)
        { w with usageFile := some .malformed }).1.usage k = 0 := by
  obtain ⟨h1, h2, -, h4⟩ :=
    initialize_force_char lines { w with usageFile := some .malformed } hne
  refine ⟨h1, h2, fun k => ?_⟩
  refine (h4 k).trans ?_
  simp [load_usage_data]

/-- C8 witness: the theorem applied to the one-item canonical list [A]. -/
theorem malformed_snapshot_recovery_witness :
    parseLinks ["A"] ≠ []
    ∧ (initialize_items true (some ["A"])
        { wInit with usageFile := some .malformed }).1.usage "A" = 0 :=
  ⟨by decide, (malformed_snapshot_recovery ["A"] wInit (by decide)).2.2 "A"⟩

/-- C9: Persistence round-trip. Starting a fresh process (no snapshot on
disk), running any number of successful sequential allocations, then
restarting and re-initializing from the canonical list seeds the new ledger
with exactly the final per-item counts, for every item of the canonical list
(each successful allocation rewrites the snapshot with the whole ledger, and
forced initialization reads it back for the canonical items). -/
theorem persistence_round_trip (lines : List String) (wPre wR : World) (fuel M : Nat)
    (hne : parseLinks lines ≠ []) :
    sameOnLinks lines wR (runAllocs (some lines) fuel M (startWorld lines wPre)) = true := by
  cases hr : runAllocs (some lines) fuel M (startWorld lines wPre) with
  | none => rfl
  | some p =>
    obtain ⟨rs, w'⟩ := p
    simp only [sameOnLinks, List.all_eq_true, beq_iff_eq]
    intro k hk
    obtain ⟨-, -, -, h4⟩ :=
      initialize_force_char lines { wR with usageFile := w'.usageFile } hne
    refine (h4 k).trans ?_
    rw [if_pos hk]
    show load_usage_data w'.usageFile k = w'.usage k
    rcases runAllocs_fileGood (some lines) fuel M (startWorld lines wPre) rs w' hr
      with h | h
    · rw [h, (startWorld_char lines wPre hne).1, (startWorld_char lines wPre hne).2 k]
      rfl
    · rw [h]
      rfl

/-- C9 witness: the round-trip theorem applied to the canonical list [A, B]
after one allocation. -/
theorem persistence_round_trip_witness :
    parseLinks ["A", "B"] ≠ []
    ∧ sameOnLinks ["A", "B"] wInit
        (runAllocs (some ["A", "B"]) 10 1 (startWorld ["A", "B"] wInit)) = true :=
  ⟨by decide, persistence_round_trip ["A", "B"] wInit wInit 10 1 (by decide)⟩

/-- C10: Ledger bound invariant. A freshly initialized state has every ledger
count equal to 0, hence at most the usage limit; and sequentially, from any
state with all counts at most the limit, a request keeps all counts between 0
and the limit and, on success, returns exactly the post-increment ledger
count of the allocated item, which lies between 1 and the limit. -/
theorem ledger_bound_invariant (lines : List String) (wPre : World) (sf : Bool)
    (links : Option (List String)) (fuel : Nat) (w : World) :
    UsageBounded (startWorld lines wPre)
    ∧ (UsageBounded w → OkBounded (get_item_loop sf links fuel w)) := by
  constructor
  · intro k
    rw [startWorld_usage]
    exact Nat.zero_le _
  · exact fun hb => getLoop_okBounded sf links fuel w hb

/-- C10 witness: the invariant applied to the fresh [A, B] pool with all
counts zero. -/
theorem ledger_bound_invariant_witness :
    UsageBounded w0 ∧ OkBounded (get_item_loop false linksAB 3 w0) := by
  have hb : UsageBounded w0 := fun _ => Nat.zero_le _
  exact ⟨hb, (ledger_bound_invariant ["A"] wInit false linksAB 3 w0).2 hb⟩

end VpnCities
